import Mathlib

/-!
Verification of the fixed-block memory pool allocator and its slab
dispatcher (files `src/allocator.cpp`, `src/allocator_slab.cpp`,
`include/allocator.h`, `include/allocator_slab.h`).

Modelling conventions (shallow embedding):
* Machine addresses are natural numbers; the null pointer is the address 0.
* The bulk memory source (`std::malloc`) is an external collaborator: the
  address it returns is a parameter of the constructor, with 0 modelling an
  allocation failure (a null return).
* The intrusive free list is embedded by its two machine ingredients: the
  head pointer (`m_MemoryPool->free_list`, as the index of the head slot, or
  `none` for null) and the per-slot stored `next` pointer (a function from
  slot index to `Option Nat`).  Reachability of the chain is defined
  separately by a fuel-bounded walk (`chainAux`), so that cyclic or
  overlong chains are representable and acyclicity is a provable property,
  not an artefact of the embedding.
* `DEBUG` builds are modelled by the `debug : Bool` field: it switches the
  header size, the trailing canary space, the per-slot `is_free` flag
  (`freeFlag`) and the corresponding checks, mirroring the `#ifdef DEBUG`
  blocks of the source.  The `pool_id` check of `Allocator::free` always
  passes in this single-allocator model (every block of the pool was
  stamped with this pool's id at construction and the stamp is never
  changed), and the canary checks always pass because the model has no
  out-of-bounds client writes (the only writers of canary words are the
  constructor, `allocate` and `free`, which all write `CANARY_VALUE`);
  both checks are therefore not represented.
* Fatal `std::abort` paths are embedded as `Except` errors carrying the
  diagnostic kind; an `.error` result produces no successor state, which
  matches the process terminating before any further mutation.
-/

/-- `alignof(Block)`: the header begins with a pointer, so the alignment of
the header type is the platform pointer alignment, 8 bytes on the 64-bit
targets the repository builds for. -/
def PTR_ALIGN : Nat := 8

/-- `sizeof(uint32_t)`: the space the constructor adds for the rear canary
word in debug builds. -/
def CANARY_SPACE : Nat := 4

/-- `sizeof(Block)`: release builds hold one `Block*` (8 bytes); debug
builds add `bool is_free`, `uint32_t pool_id`, `uint32_t canary_front`,
padded to the 8-byte alignment of the leading pointer (offsets 8, 12, 16,
total size 24). -/
def headerSize (debug : Bool) : Nat := if debug then 24 else 8

/-- `Allocator::align_up`: `(size + alignment - 1) & ~(alignment - 1)` on a
64-bit `size_t`; clearing the low three bits of `x` is `x - x % 8`. -/
def align_up (size : Nat) : Nat :=
  let x := (size + (PTR_ALIGN - 1)) % 2 ^ 64
  x - x % PTR_ALIGN

/-- The pool record `Allocator::MemoryPool` together with the per-slot
block headers that live inside the owned buffer.  `memory` is the address
returned by the bulk memory source (0 = null).  `head` is
`m_MemoryPool->free_list` as the index of the slot it points to.  `next i`
is the `Block::next` pointer stored in slot `i`; `freeFlag i` is the
debug-only `Block::is_free` flag of slot `i` (never read in release
builds). -/
structure MemoryPool where
  memory : Nat
  head : Option Nat
  next : Nat → Option Nat
  block_size : Nat
  block_count : Nat
  payload_size : Nat
  freeFlag : Nat → Bool

/-- The `Allocator` object: the `debug` field records which build of the
translation unit is being modelled; `m_MemoryPool` is the `unique_ptr`
(`none` = null). -/
structure Allocator where
  debug : Bool
  m_Initialized : Bool
  m_MemoryPool : Option MemoryPool

/-- The constructor's threading loop: for `i = 0 .. n-1`, slot `i`'s `next`
is set to the current free-list head and the head becomes slot `i`; in
debug builds slot `i` is also marked free.  Returns (next map, head, flag
map).  Slots the loop never touches keep arbitrary memory; the model fixes
their `next` to `none` and their flag to `false`, values the public
operations never read. -/
def initBlocks : Nat → ((Nat → Option Nat) × Option Nat × (Nat → Bool))
  | 0 => (fun _ => none, none, fun _ => false)
  | n + 1 =>
    let s := initBlocks n
    (fun j => if j = n then s.2.1 else s.1 j, some n,
     fun j => if j = n then true else s.2.2 j)

/-- `Allocator::Allocator(block_size, block_count)`.  `memBase` is the
address `std::malloc` returns (0 = null = failure).  Zero arguments leave
`m_MemoryPool` null; a null buffer leaves the pool record allocated with
its size fields set but no memory and no free list, exactly as in the
source, where the early `return` happens after the size fields are
assigned. -/
def mkAllocator (debug : Bool) (block_size block_count : Nat) (memBase : Nat) :
    Allocator :=
  if block_size = 0 ∨ block_count = 0 then
    { debug := debug, m_Initialized := false, m_MemoryPool := none }
  else
    let payload_size := block_size
    let raw := (headerSize debug + payload_size +
      (if debug then CANARY_SPACE else 0)) % 2 ^ 64
    let stride := align_up raw
    if memBase = 0 then
      { debug := debug, m_Initialized := false,
        m_MemoryPool := some
          { memory := 0, head := none, next := fun _ => none,
            block_size := stride, block_count := block_count,
            payload_size := payload_size, freeFlag := fun _ => false } }
    else
      { debug := debug, m_Initialized := true,
        m_MemoryPool := some
          { memory := memBase, head := (initBlocks block_count).2.1,
            next := (initBlocks block_count).1,
            block_size := stride, block_count := block_count,
            payload_size := payload_size,
            freeFlag := (initBlocks block_count).2.2 } }

/-- The debug-build `std::abort` cause inside `Allocator::allocate`. -/
inductive AllocError where
  | corruption
  deriving DecidableEq

/-- The `std::abort` causes inside `Allocator::free`. -/
inductive FreeError where
  | foreignPointer
  | misaligned
  | doubleFree
  deriving DecidableEq

/-- `Allocator::allocate()`: returns null when uninitialized or when the
free list is empty; otherwise pops the head slot and returns the address
of its payload (`(char*)block + sizeof(Block)`).  The debug build aborts
when the popped block is not marked free, and clears its mark. -/
def Allocator.allocate (a : Allocator) :
    Except AllocError (Option Nat × Allocator) :=
  match a.m_MemoryPool with
  | none => .ok (none, a)
  | some mp =>
    if ¬ a.m_Initialized then .ok (none, a)
    else
      match mp.head with
      | none => .ok (none, a)
      | some i =>
        if a.debug && !(mp.freeFlag i) then .error .corruption
        else
          let mp2 : MemoryPool :=
            { mp with
              head := mp.next i,
              freeFlag := if a.debug then
                  (fun j => if j = i then false else mp.freeFlag j)
                else mp.freeFlag }
          .ok (some (mp.memory + i * mp.block_size + headerSize a.debug),
            { a with m_MemoryPool := some mp2 })

/-- `Allocator::free(ptr)`: no-op on null `ptr` or an uninitialized pool;
otherwise rewinds `ptr` by the header size, checks it lies inside the
owned buffer and on a slot boundary (fatal abort otherwise), debug-checks
the slot is not already free (fatal abort), then pushes the slot onto the
free-list head.  The pointer arithmetic is carried out in `Int`, as the
source compares `char*` differences that may be negative. -/
def Allocator.free (a : Allocator) (ptr : Nat) : Except FreeError Allocator :=
  if ptr = 0 then .ok a
  else
    match a.m_MemoryPool with
    | none => .ok a
    | some mp =>
      if ¬ a.m_Initialized then .ok a
      else
        let memStart : Int := mp.memory
        let memEnd : Int := mp.memory + mp.block_size * mp.block_count
        let blockPtr : Int := (ptr : Int) - headerSize a.debug
        if blockPtr < memStart ∨ memEnd ≤ blockPtr then .error .foreignPointer
        else if (blockPtr - memStart) % (mp.block_size : Int) ≠ 0 then
          .error .misaligned
        else
          let i : Nat := ((blockPtr - memStart) / (mp.block_size : Int)).toNat
          if a.debug && mp.freeFlag i then .error .doubleFree
          else
            let mp2 : MemoryPool :=
              { mp with
                head := some i,
                next := fun j => if j = i then mp.head else mp.next j,
                freeFlag := if a.debug then
                    (fun j => if j = i then true else mp.freeFlag j)
                  else mp.freeFlag }
            .ok { a with m_MemoryPool := some mp2 }

/-- `Allocator::is_initialized()`. -/
def Allocator.isInitialized (a : Allocator) : Bool := a.m_Initialized

/-- `Allocator::block_size()`: `return m_MemoryPool->block_size;` with no
null guard — when `m_MemoryPool` is null the dereference has no defined
result, modelled as `none` (in a running process: a crash). -/
def Allocator.blockSize (a : Allocator) : Option Nat :=
  a.m_MemoryPool.map (·.block_size)

/-- `SlabAllocator::SlabAllocator()`: four pools with payload sizes 64,
128, 256, 512 and 100 blocks each, in that order.  `b0 … b3` are the
buffer addresses the memory source hands to the four constructors. -/
def mkSlab (debug : Bool) (b0 b1 b2 b3 : Nat) : List Allocator :=
  [mkAllocator debug 64 100 b0, mkAllocator debug 128 100 b1,
   mkAllocator debug 256 100 b2, mkAllocator debug 512 100 b3]

/-- The value of `slab->block_size()` as read by the dispatcher.  The
dispatcher only ever constructs pools whose `m_MemoryPool` is non-null, so
the accessor's value is defined there; the default 0 is never produced for
a slab-owned pool (the null-dereference case of the raw accessor is kept
in `Allocator.blockSize` and examined with the construction-failure
claims). -/
def blockSizeD (a : Allocator) : Nat :=
  (a.m_MemoryPool.map (·.block_size)).getD 0

/-- `SlabAllocator::allocate(size)`: forwards to the first pool whose
`block_size()` is at least `size`; null when no pool qualifies. -/
def slabAllocate : List Allocator → Nat → Except AllocError (Option Nat × List Allocator)
  | [], _ => .ok (none, [])
  | a :: rest, size =>
    if size ≤ blockSizeD a then
      (a.allocate).map (fun r => (r.1, r.2 :: rest))
    else
      (slabAllocate rest size).map (fun r => (r.1, a :: r.2))

/-- `SlabAllocator::free(ptr, size)`: forwards to the first pool whose
`block_size()` is at least `size`; silently returns when no pool
qualifies. -/
def slabFree : List Allocator → Nat → Nat → Except FreeError (List Allocator)
  | [], _, _ => .ok []
  | a :: rest, ptr, size =>
    if size ≤ blockSizeD a then
      (a.free ptr).map (· :: rest)
    else
      (slabFree rest ptr size).map (a :: ·)

/-- Driver for repeated `allocate()` calls: the list of results of `n`
consecutive calls, together with the final allocator state. -/
def allocN (a : Allocator) : Nat → Except AllocError (List (Option Nat) × Allocator)
  | 0 => .ok ([], a)
  | n + 1 => do
    let r ← a.allocate
    let rest ← allocN r.2 n
    pure (r.1 :: rest.1, rest.2)

/-- The payload address of slot `i`, as handed out by `allocate`. -/
def addrOf (debug : Bool) (mp : MemoryPool) (i : Nat) : Nat :=
  mp.memory + i * mp.block_size + headerSize debug

/-- Walk the stored `next` pointers starting from `h`, with fuel: `none`
when the walk does not reach the null pointer within `fuel` steps (a cycle
or an overlong chain), otherwise the list of slot indices visited. -/
def chainAux (nx : Nat → Option Nat) : Nat → Option Nat → Option (List Nat)
  | _, none => some []
  | 0, some _ => none
  | fuel + 1, some i =>
    match chainAux nx fuel (nx i) with
    | some l => some (i :: l)
    | none => none

/-- The free list of a pool read off the in-memory chain, with fuel
`block_count`: defined exactly when the chain is null-terminated without
revisiting (a chain of distinct in-range slots has length at most
`block_count`). -/
def freeChain (mp : MemoryPool) : Option (List Nat) :=
  chainAux mp.next mp.block_count mp.head

/-- The stride the constructor stores for a given build and payload size:
`sizeof(Block) + payload` (plus the rear canary word in debug builds),
computed in `size_t`, then aligned up. -/
def strideOf (debug : Bool) (payload : Nat) : Nat :=
  align_up ((headerSize debug + payload + (if debug then CANARY_SPACE else 0)) % 2 ^ 64)

/-- The pool state `allocate` leaves behind after popping slot `i`
(statement vocabulary; the operation itself inlines this update). -/
def popUpdate (dbg : Bool) (mp : MemoryPool) (i : Nat) : MemoryPool :=
  { mp with
    head := mp.next i,
    freeFlag := if dbg then
        (fun j => if j = i then false else mp.freeFlag j)
      else mp.freeFlag }

/-- The pool state `free` leaves behind after pushing slot `i` (statement
vocabulary; the operation itself inlines this update). -/
def pushUpdate (dbg : Bool) (mp : MemoryPool) (i : Nat) : MemoryPool :=
  { mp with
    head := some i,
    next := fun j => if j = i then mp.head else mp.next j,
    freeFlag := if dbg then
        (fun j => if j = i then true else mp.freeFlag j)
      else mp.freeFlag }

/-- Well-formedness of a pool state, relative to the ghost list `inUse` of
slot indices currently handed out and the concrete free list `l`: the pool
is ready, the stored chain from the head is exactly the null-terminated,
duplicate-free list `l` of in-range slots, the free slots and the in-use
slots partition the `block_count` slots, and in debug builds the `is_free`
flag of every slot agrees with its membership in the free list. -/
def WFl (a : Allocator) (mp : MemoryPool) (inUse l : List Nat) : Prop :=
  a.m_Initialized = true ∧
  a.m_MemoryPool = some mp ∧
  0 < mp.block_size ∧
  freeChain mp = some l ∧
  l.Nodup ∧
  (∀ i ∈ l, i < mp.block_count) ∧
  inUse.Nodup ∧
  (∀ i ∈ inUse, i < mp.block_count) ∧
  (∀ i, i < mp.block_count → (i ∈ l ↔ i ∉ inUse)) ∧
  (a.debug = true → ∀ i, i < mp.block_count → (mp.freeFlag i = true ↔ i ∈ l))

/-- Observation helper: the free-list head of pool `k` of a dispatcher
(`none` when the index or the pool record is absent). -/
def headOfPool (pools : List Allocator) (k : Nat) : Option (Option Nat) :=
  (pools.get? k).bind (fun a => a.m_MemoryPool.map (·.head))

/-- A concrete release-build pool used by witnesses: payload 64, stride 72,
two slots at addresses 1000 and 1072; slot 0 is free (and is the whole
free list), slot 1 is in use. -/
def sampleMP : MemoryPool :=
  ⟨1000, some 0, fun _ => none, 72, 2, 64, fun _ => false⟩

/-- A release-build allocator owning `sampleMP`. -/
def sampleA : Allocator := ⟨false, true, some sampleMP⟩

/-- A concrete debug-build pool used by witnesses: payload 64, stride 96,
two slots; every slot is marked free (`is_free = true`). -/
def sampleDbgMP : MemoryPool :=
  ⟨1000, some 0, fun _ => none, 96, 2, 64, fun _ => true⟩

/-- A debug-build allocator owning `sampleDbgMP`. -/
def sampleDbgA : Allocator := ⟨true, true, some sampleDbgMP⟩

/-! ### Basic facts about the constructor's threading loop -/

theorem initBlocks_head (n : Nat) :
    (initBlocks n).2.1 = if n = 0 then none else some (n - 1) := by
  cases n <;> rfl

theorem initBlocks_next (n : Nat) :
    ∀ j, j < n → (initBlocks n).1 j = if j = 0 then none else some (j - 1) := by
  induction n with
  | zero => intro j hj; omega
  | succ m ih =>
    intro j hj
    show (if j = m then (initBlocks m).2.1 else (initBlocks m).1 j) = _
    by_cases hjm : j = m
    · subst hjm
      simp [initBlocks_head]
    · rw [if_neg hjm]
      exact ih j (by omega)

theorem initBlocks_flag (n : Nat) :
    ∀ j, j < n → (initBlocks n).2.2 j = true := by
  induction n with
  | zero => intro j hj; omega
  | succ m ih =>
    intro j hj
    show (if j = m then true else (initBlocks m).2.2 j) = true
    by_cases hjm : j = m
    · simp [hjm]
    · rw [if_neg hjm]
      exact ih j (by omega)

theorem mkAllocator_eq_init (debug : Bool) (ps count base : Nat)
    (hps : ps ≠ 0) (hc : count ≠ 0) (hb : base ≠ 0) :
    mkAllocator debug ps count base =
      ⟨debug, true, some ⟨base, (initBlocks count).2.1, (initBlocks count).1,
        strideOf debug ps, count, ps, (initBlocks count).2.2⟩⟩ := by
  unfold mkAllocator strideOf
  rw [if_neg (by simp [hps, hc]), if_neg hb]

theorem mkAllocator_zero_args (debug : Bool) (ps count base : Nat)
    (h : ps = 0 ∨ count = 0) :
    mkAllocator debug ps count base = ⟨debug, false, none⟩ := by
  unfold mkAllocator
  rw [if_pos h]

theorem mkAllocator_no_memory (debug : Bool) (ps count : Nat)
    (hps : ps ≠ 0) (hc : count ≠ 0) :
    mkAllocator debug ps count 0 =
      ⟨debug, false, some ⟨0, none, fun _ => none, strideOf debug ps, count, ps,
        fun _ => false⟩⟩ := by
  unfold mkAllocator strideOf
  rw [if_neg (by simp [hps, hc]), if_pos rfl]

/-! ### Single-step behaviour of `allocate` and `free` -/

theorem allocate_pop (a : Allocator) (mp : MemoryPool) (i : Nat)
    (hmp : a.m_MemoryPool = some mp) (hinit : a.m_Initialized = true)
    (hhead : mp.head = some i)
    (hflag : a.debug = true → mp.freeFlag i = true) :
    a.allocate = .ok (some (addrOf a.debug mp i),
      ⟨a.debug, true, some (popUpdate a.debug mp i)⟩) := by
  obtain ⟨dbg, init, mpo⟩ := a
  simp only at hmp hinit hflag
  subst hmp hinit
  have hcheck : (dbg && !(mp.freeFlag i)) = false := by
    cases dbg
    · rfl
    · simp [hflag rfl]
  simp [Allocator.allocate, hhead, hcheck, addrOf, popUpdate]

theorem allocate_empty (a : Allocator) (mp : MemoryPool)
    (hmp : a.m_MemoryPool = some mp) (hhead : mp.head = none) :
    a.allocate = .ok (none, a) := by
  obtain ⟨dbg, init, mpo⟩ := a
  simp only at hmp
  subst hmp
  cases init
  · rfl
  · simp [Allocator.allocate, hhead]

theorem addrOf_ne_zero (dbg : Bool) (mp : MemoryPool) (i : Nat) :
    addrOf dbg mp i ≠ 0 := by
  cases dbg <;> simp [addrOf, headerSize]

theorem addrOf_blockPtr (dbg : Bool) (mp : MemoryPool) (i : Nat) :
    ((addrOf dbg mp i : Nat) : Int) - (headerSize dbg : Int) =
      (mp.memory : Int) + (i : Int) * (mp.block_size : Int) := by
  simp only [addrOf]
  push_cast
  ring

/-- Evaluation of `free` at the payload address of an in-range slot: both
validity checks pass and the outcome is decided by the debug double-free
check. -/
theorem free_eval (a : Allocator) (mp : MemoryPool) (i : Nat)
    (hmp : a.m_MemoryPool = some mp) (hinit : a.m_Initialized = true)
    (hbs : 0 < mp.block_size) (hi : i < mp.block_count) :
    a.free (addrOf a.debug mp i) =
      if a.debug && mp.freeFlag i then .error .doubleFree
      else .ok ⟨a.debug, true, some (pushUpdate a.debug mp i)⟩ := by
  obtain ⟨dbg, init, mpo⟩ := a
  simp only at hmp hinit
  subst hmp hinit
  have hbsZ : (0 : Int) < (mp.block_size : Int) := by exact_mod_cast hbs
  have hiZ : (i : Int) < (mp.block_count : Int) := by exact_mod_cast hi
  have h1 : (0 : Int) ≤ (i : Int) * (mp.block_size : Int) :=
    mul_nonneg (by positivity) (by positivity)
  have h2 : (i : Int) * (mp.block_size : Int) <
      (mp.block_size : Int) * (mp.block_count : Int) := by
    calc (i : Int) * (mp.block_size : Int)
        < (mp.block_count : Int) * (mp.block_size : Int) :=
          mul_lt_mul_of_pos_right hiZ hbsZ
      _ = (mp.block_size : Int) * (mp.block_count : Int) := mul_comm _ _
  simp only [Allocator.free, if_neg (addrOf_ne_zero dbg mp i)]
  rw [if_neg (by simp)]
  rw [addrOf_blockPtr dbg mp i]
  rw [if_neg (by rintro (h | h) <;> linarith)]
  rw [if_neg (by
    simp only [add_sub_cancel_left]
    simp [Int.mul_emod_left, Int.mul_emod_right])]
  have hdiv : (((mp.memory : Int) + (i : Int) * (mp.block_size : Int) -
      (mp.memory : Int)) / (mp.block_size : Int)).toNat = i := by
    rw [add_sub_cancel_left, Int.mul_ediv_cancel _ (by omega)]
    exact Int.toNat_natCast i
  rw [hdiv]
  cases hf : mp.freeFlag i <;> cases dbg <;> simp [pushUpdate, hf]

theorem free_push (a : Allocator) (mp : MemoryPool) (i : Nat)
    (hmp : a.m_MemoryPool = some mp) (hinit : a.m_Initialized = true)
    (hbs : 0 < mp.block_size) (hi : i < mp.block_count)
    (hflag : a.debug = true → mp.freeFlag i = false) :
    a.free (addrOf a.debug mp i) =
      .ok ⟨a.debug, true, some (pushUpdate a.debug mp i)⟩ := by
  have hfree := free_eval a mp i hmp hinit hbs hi
  have hcheck : (a.debug && mp.freeFlag i) = false := by
    cases hd : a.debug
    · rfl
    · simp [hflag hd]
  rw [hcheck] at hfree
  simpa using hfree

/-- C3: for an initialized pool, freeing the payload address of any
in-range slot that is currently in use and then calling `allocate()` hands
back exactly that address (the freed slot becomes the head of the free
list and the next `allocate` pops the head).  Every pointer obtained from
`allocate()` and not yet freed is of this shape: `addrOf` is the payload
address `allocate` returns for slot `i`, and in a debug build an in-use
slot has `is_free = false`.  The `count = 1` scenario of the claim is the
instance where the pool has a single slot. -/
theorem C3_free_then_allocate_same_address (a : Allocator) (mp : MemoryPool)
    (i : Nat) (hmp : a.m_MemoryPool = some mp) (hinit : a.m_Initialized = true)
    (hbs : 0 < mp.block_size) (hi : i < mp.block_count)
    (huse : a.debug = true → mp.freeFlag i = false) :
    ∃ a2 a3, a.free (addrOf a.debug mp i) = .ok a2 ∧
      a2.allocate = .ok (some (addrOf a.debug mp i), a3) := by
  have hflag2 : (⟨a.debug, true, some (pushUpdate a.debug mp i)⟩ : Allocator).debug = true →
      (pushUpdate a.debug mp i).freeFlag i = true := by
    intro hd
    simp only at hd
    simp [pushUpdate, hd]
  have hpop := allocate_pop ⟨a.debug, true, some (pushUpdate a.debug mp i)⟩
    (pushUpdate a.debug mp i) i rfl rfl rfl hflag2
  exact ⟨_, _, free_push a mp i hmp hinit hbs hi huse, hpop⟩

/-- C3 witness: the two-slot release pool `sampleA` with slot 1 in use. -/
theorem C3_witness :
    sampleA.m_MemoryPool = some sampleMP ∧ sampleA.m_Initialized = true ∧
    0 < sampleMP.block_size ∧ 1 < sampleMP.block_count ∧
    (sampleA.debug = true → sampleMP.freeFlag 1 = false) ∧
    ∃ a2 a3, sampleA.free (addrOf sampleA.debug sampleMP 1) = .ok a2 ∧
      a2.allocate = .ok (some (addrOf sampleA.debug sampleMP 1), a3) :=
  ⟨rfl, rfl, by decide, by decide, by decide,
    C3_free_then_allocate_same_address sampleA sampleMP 1 rfl rfl (by decide)
      (by decide) (by decide)⟩

/-- C7: in a debug build, freeing the payload address of a slot whose
`is_free` flag is already set takes the fatal double-free abort path, and
no successor state exists (the push onto the free list is coded after the
check, so the free list is untouched when the process aborts; in
particular no later allocation can be served from a corrupted list). -/
theorem C7_double_free_aborts (a : Allocator) (mp : MemoryPool) (i : Nat)
    (hdbg : a.debug = true) (hmp : a.m_MemoryPool = some mp)
    (hinit : a.m_Initialized = true) (hbs : 0 < mp.block_size)
    (hi : i < mp.block_count) (hflag : mp.freeFlag i = true) :
    a.free (addrOf a.debug mp i) = .error .doubleFree ∧
    ∀ a2, a.free (addrOf a.debug mp i) ≠ .ok a2 := by
  have hfree := free_eval a mp i hmp hinit hbs hi
  simp only [hdbg, hflag, Bool.and_self, if_true] at hfree
  simp only [hdbg]
  refine ⟨hfree, fun a2 h => ?_⟩
  rw [hfree] at h
  cases h

/-- C7 witness: the debug pool `sampleDbgA`, whose slot 1 is marked free,
double-freed at slot 1's payload address. -/
theorem C7_witness :
    sampleDbgA.debug = true ∧ sampleDbgA.m_MemoryPool = some sampleDbgMP ∧
    sampleDbgA.m_Initialized = true ∧ 0 < sampleDbgMP.block_size ∧
    1 < sampleDbgMP.block_count ∧ sampleDbgMP.freeFlag 1 = true ∧
    (sampleDbgA.free (addrOf sampleDbgA.debug sampleDbgMP 1) = .error .doubleFree ∧
     ∀ a2, sampleDbgA.free (addrOf sampleDbgA.debug sampleDbgMP 1) ≠ .ok a2) :=
  ⟨rfl, rfl, rfl, by decide, by decide, by decide,
    C7_double_free_aborts sampleDbgA sampleDbgMP 1 rfl rfl rfl (by decide)
      (by decide) (by decide)⟩

/-! ### Exhausting a freshly constructed pool (C1) -/

theorem allocN_countdown (dbg : Bool) (base bs bc ps : Nat)
    (nx : Nat → Option Nat) :
    ∀ (k : Nat) (hd : Option Nat) (fl : Nat → Bool),
      hd = (if k = 0 then none else some (k - 1)) →
      (∀ j, j < k → nx j = if j = 0 then none else some (j - 1)) →
      (∀ j, j < k → fl j = true) →
      ∃ rs fl',
        allocN ⟨dbg, true, some ⟨base, hd, nx, bs, bc, ps, fl⟩⟩ k =
          .ok (rs, ⟨dbg, true, some ⟨base, none, nx, bs, bc, ps, fl'⟩⟩) ∧
        rs.length = k ∧ ∀ r ∈ rs, r ≠ none := by
  intro k
  induction k with
  | zero =>
    intro hd fl hhd _ _
    simp only [if_pos rfl] at hhd
    subst hhd
    exact ⟨[], fl, rfl, rfl, by simp⟩
  | succ m ih =>
    intro hd fl hhd hnx hfl
    simp only [Nat.succ_ne_zero, if_neg, Nat.add_sub_cancel] at hhd
    subst hhd
    set a : Allocator := ⟨dbg, true, some ⟨base, some m, nx, bs, bc, ps, fl⟩⟩
      with ha
    set mp : MemoryPool := ⟨base, some m, nx, bs, bc, ps, fl⟩ with hmp
    have hstep := allocate_pop a mp m rfl rfl rfl
      (fun _ => hfl m (Nat.lt_succ_self m))
    have hfl1 : ∀ j, j < m →
        (popUpdate a.debug mp m).freeFlag j = true := by
      intro j hj
      show (if dbg then (fun j => if j = m then false else fl j)
        else fl) j = true
      cases dbg
      · exact hfl j (by omega)
      · show (if j = m then false else fl j) = true
        rw [if_neg (by omega)]
        exact hfl j (by omega)
    have hhd1 : (popUpdate a.debug mp m).head =
        (if m = 0 then none else some (m - 1)) := by
      show mp.next m = _
      exact hnx m (Nat.lt_succ_self m)
    obtain ⟨rs, fl', hrun, hlen, hnn⟩ := ih (popUpdate a.debug mp m).head
      (popUpdate a.debug mp m).freeFlag hhd1
      (fun j hj => hnx j (by omega)) hfl1
    refine ⟨some (addrOf a.debug mp m) :: rs, fl', ?_, by simp [hlen], ?_⟩
    · show (a.allocate >>= fun r => _) = _
      rw [hstep]
      show (allocN ⟨dbg, true, some (popUpdate a.debug mp m)⟩ m).bind _ = _
      rw [show (⟨dbg, true, some (popUpdate a.debug mp m)⟩ : Allocator) =
          ⟨dbg, true, some ⟨base, (popUpdate a.debug mp m).head, nx, bs, bc, ps,
            (popUpdate a.debug mp m).freeFlag⟩⟩ from rfl]
      rw [hrun]
      rfl
    · intro r hr
      rcases List.mem_cons.1 hr with h | h
      · subst h; simp
      · exact hnn r h

/-- C1: a pool constructed with a positive payload size, a positive block
count and a successful buffer request serves exactly `count` consecutive
non-null `allocate()` results, and the `count + 1`-th call returns null,
leaving the allocator unchanged. -/
theorem C1_exactly_count_allocations (debug : Bool) (ps count base : Nat)
    (hps : 0 < ps) (hc : 0 < count) (hb : base ≠ 0) :
    ∃ rs a', allocN (mkAllocator debug ps count base) count = .ok (rs, a') ∧
      rs.length = count ∧ (∀ r ∈ rs, r ≠ none) ∧
      a'.allocate = .ok (none, a') := by
  rw [mkAllocator_eq_init debug ps count base (by omega) (by omega) hb]
  obtain ⟨rs, fl', hrun, hlen, hnn⟩ :=
    allocN_countdown debug base (strideOf debug ps) count ps
      (initBlocks count).1 count (initBlocks count).2.1 (initBlocks count).2.2
      (initBlocks_head count) (initBlocks_next count) (initBlocks_flag count)
  refine ⟨rs, _, hrun, hlen, hnn, ?_⟩
  exact allocate_empty _ ⟨base, none, (initBlocks count).1, strideOf debug ps,
    count, ps, fl'⟩ rfl rfl

/-- C1 witness: a release pool with payload 64 and three blocks at buffer
address 1000. -/
theorem C1_witness :
    0 < 64 ∧ 0 < 3 ∧ (1000 : Nat) ≠ 0 ∧
    ∃ rs a', allocN (mkAllocator false 64 3 1000) 3 = .ok (rs, a') ∧
      rs.length = 3 ∧ (∀ r ∈ rs, r ≠ none) ∧
      a'.allocate = .ok (none, a') :=
  ⟨by decide, by decide, by decide,
    C1_exactly_count_allocations false 64 3 1000 (by decide) (by decide)
      (by decide)⟩

/-! ### The free list as a chain through the stored next pointers (C4) -/

theorem chainAux_none (nx : Nat → Option Nat) (f : Nat) :
    chainAux nx f none = some [] := by
  cases f <;> rfl

theorem chainAux_succ (nx : Nat → Option Nat) (g i : Nat) :
    chainAux nx (g + 1) (some i) = (chainAux nx g (nx i)).map (i :: ·) := by
  cases h : chainAux nx g (nx i) <;> simp [chainAux, h]

theorem chainAux_zero_some (nx : Nat → Option Nat) (i : Nat) :
    chainAux nx 0 (some i) = none := rfl

theorem chainAux_mono (nx : Nat → Option Nat) :
    ∀ (f : Nat) (h : Option Nat) (l : List Nat) (f' : Nat),
      chainAux nx f h = some l → f ≤ f' → chainAux nx f' h = some l := by
  intro f
  induction f with
  | zero =>
    intro h l f' hc _
    cases h with
    | none => rw [chainAux_none] at hc; rw [chainAux_none]; exact hc
    | some i => rw [chainAux_zero_some] at hc; cases hc
  | succ g ih =>
    intro h l f' hc hle
    cases h with
    | none => rw [chainAux_none] at hc; rw [chainAux_none]; exact hc
    | some i =>
      obtain ⟨g', rfl⟩ : ∃ g', f' = g' + 1 := ⟨f' - 1, by omega⟩
      rw [chainAux_succ] at hc
      obtain ⟨t, ht, rfl⟩ := Option.map_eq_some'.1 hc
      rw [chainAux_succ, ih (nx i) t g' ht (by omega)]
      rfl

theorem chainAux_length (nx : Nat → Option Nat) :
    ∀ (f : Nat) (h : Option Nat) (l : List Nat),
      chainAux nx f h = some l → l.length ≤ f := by
  intro f
  induction f with
  | zero =>
    intro h l hc
    cases h with
    | none => rw [chainAux_none] at hc; cases hc; simp
    | some i => rw [chainAux_zero_some] at hc; cases hc
  | succ g ih =>
    intro h l hc
    cases h with
    | none => rw [chainAux_none] at hc; cases hc; simp
    | some i =>
      rw [chainAux_succ] at hc
      obtain ⟨t, ht, rfl⟩ := Option.map_eq_some'.1 hc
      have := ih (nx i) t ht
      simp
      omega

theorem chainAux_congr (nx nx' : Nat → Option Nat) :
    ∀ (f : Nat) (h : Option Nat) (l : List Nat),
      chainAux nx f h = some l → (∀ j ∈ l, nx' j = nx j) →
      chainAux nx' f h = some l := by
  intro f
  induction f with
  | zero =>
    intro h l hc _
    cases h with
    | none => rw [chainAux_none] at hc; rw [chainAux_none]; exact hc
    | some i => rw [chainAux_zero_some] at hc; cases hc
  | succ g ih =>
    intro h l hc hagree
    cases h with
    | none => rw [chainAux_none] at hc; rw [chainAux_none]; exact hc
    | some i =>
      rw [chainAux_succ] at hc
      obtain ⟨t, ht, rfl⟩ := Option.map_eq_some'.1 hc
      rw [chainAux_succ, hagree i (List.mem_cons_self i t),
        ih (nx i) t ht (fun j hj => hagree j (List.mem_cons_of_mem i hj))]
      rfl

theorem chainAux_nil_head (nx : Nat → Option Nat) (f : Nat) (h : Option Nat)
    (hc : chainAux nx f h = some []) : h = none := by
  cases h with
  | none => rfl
  | some i =>
    cases f with
    | zero => rw [chainAux_zero_some] at hc; cases hc
    | succ g =>
      rw [chainAux_succ] at hc
      obtain ⟨t, _, ht⟩ := Option.map_eq_some'.1 hc
      cases ht

theorem chainAux_descending (nx : Nat → Option Nat) (m : Nat)
    (hnx : ∀ j, j < m → nx j = if j = 0 then none else some (j - 1)) :
    ∀ k, k < m → ∀ f, k < f →
      chainAux nx f (some k) = some ((List.range (k + 1)).reverse) := by
  intro k
  induction k with
  | zero =>
    intro hk f hf
    obtain ⟨g, rfl⟩ : ∃ g, f = g + 1 := ⟨f - 1, by omega⟩
    rw [chainAux_succ, hnx 0 hk, if_pos rfl, chainAux_none]
    rfl
  | succ k ih =>
    intro hk f hf
    obtain ⟨g, rfl⟩ : ∃ g, f = g + 1 := ⟨f - 1, by omega⟩
    rw [chainAux_succ, hnx (k + 1) hk, if_neg (by omega)]
    have : k + 1 - 1 = k := by omega
    rw [this, ih (by omega) g (by omega)]
    simp [List.range_succ]

theorem chainAux_shrink (nx : Nat → Option Nat) :
    ∀ (f : Nat) (h : Option Nat) (l : List Nat),
      chainAux nx f h = some l → chainAux nx l.length h = some l := by
  intro f
  induction f with
  | zero =>
    intro h l hc
    cases h with
    | none => rw [chainAux_none] at hc; cases hc; rw [chainAux_none]
    | some i => rw [chainAux_zero_some] at hc; cases hc
  | succ g ih =>
    intro h l hc
    cases h with
    | none => rw [chainAux_none] at hc; cases hc; rw [chainAux_none]
    | some i =>
      rw [chainAux_succ] at hc
      obtain ⟨t, ht, rfl⟩ := Option.map_eq_some'.1 hc
      show chainAux nx (t.length + 1) (some i) = some (i :: t)
      rw [chainAux_succ, ih (nx i) t ht]
      rfl

theorem chainAux_cons_elim (nx : Nat → Option Nat) (f : Nat) (h : Option Nat)
    (i : Nat) (l' : List Nat) (hc : chainAux nx f h = some (i :: l')) :
    h = some i ∧ ∃ g, f = g + 1 ∧ chainAux nx g (nx i) = some l' := by
  cases h with
  | none => rw [chainAux_none] at hc; cases hc
  | some i0 =>
    cases f with
    | zero => rw [chainAux_zero_some] at hc; cases hc
    | succ g =>
      rw [chainAux_succ] at hc
      obtain ⟨t, ht, heq⟩ := Option.map_eq_some'.1 hc
      obtain ⟨h1, h2⟩ := List.cons.injEq .. ▸ heq
      subst h1
      cases h2
      exact ⟨rfl, g, rfl, ht⟩

theorem nodup_length_succ_le (l : List Nat) (n i : Nat) (hnd : l.Nodup)
    (hmem : ∀ j ∈ l, j < n) (hi : i < n) (hnot : i ∉ l) :
    l.length + 1 ≤ n := by
  have h1 : (i :: l).Nodup := List.nodup_cons.2 ⟨hnot, hnd⟩
  have hsub : (i :: l).toFinset ⊆ Finset.range n := by
    intro j hj
    rw [List.mem_toFinset] at hj
    rw [Finset.mem_range]
    rcases List.mem_cons.1 hj with h | h
    · subst h; exact hi
    · exact hmem j h
  have hcard := Finset.card_le_card hsub
  rw [List.toFinset_card_of_nodup h1, Finset.card_range] at hcard
  simpa using hcard

theorem align_up_mod (s : Nat) : align_up s % PTR_ALIGN = 0 := by
  show ((s + (8 - 1)) % 2 ^ 64 - (s + (8 - 1)) % 2 ^ 64 % 8) % 8 = 0
  omega

theorem strideOf_pos (debug : Bool) (ps : Nat) (hps : 0 < ps)
    (hub : ps ≤ 2 ^ 64 - 64) : 0 < strideOf debug ps := by
  cases debug <;>
    simp [strideOf, align_up, headerSize, CANARY_SPACE, PTR_ALIGN] <;>
    omega

/-- C4: the free-list invariant.  Part 1: a successful construction
produces a well-formed state whose free chain (a null-terminated,
duplicate-free walk over the stored next pointers) covers all `count`
slots, with nothing in use.  Part 2: `allocate` on a well-formed state
either reports exhaustion unchanged (empty free list) or pops exactly the
head slot, moving it from the free set to the in-use set and preserving
well-formedness.  Part 3: `free` of any in-use slot's payload address
succeeds and pushes that slot back onto the head of the chain, moving it
from the in-use set to the free set and preserving well-formedness.  In
`WFl`, the free set and the in-use set partition the `count` slots with no
overlap. -/
theorem C4_free_list_invariant :
    (∀ (debug : Bool) (ps count base : Nat), 0 < ps → ps ≤ 2 ^ 64 - 64 →
      0 < count → base ≠ 0 →
      ∃ mp l, WFl (mkAllocator debug ps count base) mp [] l ∧
        l.length = count) ∧
    (∀ (a : Allocator) (mp : MemoryPool) (inUse l : List Nat) (r : Option Nat)
        (a' : Allocator), WFl a mp inUse l → a.allocate = .ok (r, a') →
      (l = [] ∧ r = none ∧ a' = a) ∨
      (∃ i l', l = i :: l' ∧ r = some (addrOf a.debug mp i) ∧
        WFl a' (popUpdate a.debug mp i) (i :: inUse) l')) ∧
    (∀ (a : Allocator) (mp : MemoryPool) (inUse l : List Nat) (i : Nat),
      WFl a mp inUse l → i ∈ inUse →
      a.free (addrOf a.debug mp i) =
        .ok ⟨a.debug, true, some (pushUpdate a.debug mp i)⟩ ∧
      WFl ⟨a.debug, true, some (pushUpdate a.debug mp i)⟩
        (pushUpdate a.debug mp i) (inUse.erase i) (i :: l)) := by
  refine ⟨?_, ?_, ?_⟩
  · -- construction
    intro debug ps count base hps hub hc hb
    rw [mkAllocator_eq_init debug ps count base (by omega) (by omega) hb]
    refine ⟨_, (List.range count).reverse,
      ⟨rfl, rfl, strideOf_pos debug ps hps hub, ?_, ?_, ?_, ?_, ?_, ?_, ?_⟩,
      by simp⟩
    · show chainAux (initBlocks count).1 count (initBlocks count).2.1 = _
      rw [initBlocks_head, if_neg (by omega)]
      have := chainAux_descending (initBlocks count).1 count
        (initBlocks_next count) (count - 1) (by omega) count (by omega)
      rw [show count - 1 + 1 = count from by omega] at this
      exact this
    · exact List.nodup_reverse.2 (List.nodup_range count)
    · intro i hi
      rw [List.mem_reverse, List.mem_range] at hi
      exact hi
    · exact List.nodup_nil
    · intro i hi; cases hi
    · intro i hi
      simp [List.mem_reverse, List.mem_range, hi]
    · intro _ i hi
      simp only [List.mem_reverse, List.mem_range]
      constructor
      · intro _; exact hi
      · intro _; exact initBlocks_flag count i hi
  · -- allocate
    intro a mp inUse l r a' hwf halloc
    obtain ⟨hinit, hmp, hbs, hchain, hnd, hmem, hiund, hiumem, hpart, hflags⟩ := hwf
    cases l with
    | nil =>
      left
      have hhd : mp.head = none := chainAux_nil_head _ _ _ hchain
      rw [allocate_empty a mp hmp hhd] at halloc
      obtain ⟨h1, h2⟩ := Prod.mk.injEq .. ▸ Except.ok.injEq .. ▸ halloc
      exact ⟨rfl, h1.symm, h2.symm⟩
    | cons i l' =>
      right
      obtain ⟨hhd, g, hg, hrest⟩ := chainAux_cons_elim _ _ _ _ _ hchain
      have hil : i ∈ i :: l' := List.mem_cons_self i l'
      have hicount : i < mp.block_count := hmem i hil
      have hflag : a.debug = true → mp.freeFlag i = true := fun hd =>
        (hflags hd i hicount).2 hil
      rw [allocate_pop a mp i hmp hinit hhd hflag] at halloc
      obtain ⟨h1, h2⟩ := Prod.mk.injEq .. ▸ Except.ok.injEq .. ▸ halloc
      subst h2
      refine ⟨i, l', rfl, h1.symm, rfl, rfl, hbs, ?_, hnd.of_cons, ?_, ?_, ?_,
        ?_, ?_⟩
      · -- chain of the popped state
        show chainAux mp.next mp.block_count (mp.next i) = some l'
        exact chainAux_mono mp.next g (mp.next i) l' mp.block_count hrest
          (by omega)
      · intro j hj
        exact hmem j (List.mem_cons_of_mem i hj)
      · exact List.nodup_cons.2 ⟨fun hmemi => ((hpart i hicount).1 hil) hmemi,
          hiund⟩
      · intro j hj
        rcases List.mem_cons.1 hj with h | h
        · subst h; exact hicount
        · exact hiumem j h
      · intro j hj
        by_cases hji : j = i
        · subst hji
          constructor
          · intro hjl'
            exact absurd (List.nodup_cons.1 hnd).1 (by simp [hjl'])
          · intro hnotin
            exact absurd (List.mem_cons_self j inUse) hnotin
        · constructor
          · intro hjl' hjin
            rcases List.mem_cons.1 hjin with h | h
            · exact hji h
            · exact ((hpart j hj).1 (List.mem_cons_of_mem i hjl')) h
          · intro hnotin
            have hjin : j ∉ inUse := fun h =>
              hnotin (List.mem_cons_of_mem i h)
            rcases List.mem_cons.1 ((hpart j hj).2 hjin) with h | h
            · exact absurd h hji
            · exact h
      · intro hd j hj
        show (popUpdate a.debug mp i).freeFlag j = true ↔ j ∈ l'
        rw [hd]
        show (if true = true then (fun j => if j = i then false
          else mp.freeFlag j) else mp.freeFlag) j = true ↔ j ∈ l'
        rw [if_pos rfl]
        by_cases hji : j = i
        · subst hji
          simp only [if_pos rfl]
          constructor
          · intro h; cases h
          · intro hjl'
            exact absurd (List.nodup_cons.1 hnd).1 (by simp [hjl'])
        · rw [if_neg hji]
          rw [hflags hd j hj]
          rw [List.mem_cons, or_iff_right hji]
  · -- free
    intro a mp inUse l i hwf hin
    obtain ⟨hinit, hmp, hbs, hchain, hnd, hmem, hiund, hiumem, hpart, hflags⟩ := hwf
    have hicount : i < mp.block_count := hiumem i hin
    have hinotl : i ∉ l := fun hl => (hpart i hicount).1 hl hin
    have hflag : a.debug = true → mp.freeFlag i = false := by
      intro hd
      cases hf : mp.freeFlag i
      · rfl
      · exact absurd ((hflags hd i hicount).1 hf) hinotl
    refine ⟨free_push a mp i hmp hinit hbs hicount hflag, rfl, rfl, hbs, ?_,
      List.nodup_cons.2 ⟨hinotl, hnd⟩, ?_, hiund.erase i, ?_, ?_, ?_⟩
    · -- the pushed chain
      show chainAux (pushUpdate a.debug mp i).next mp.block_count (some i) =
        some (i :: l)
      obtain ⟨g, hg⟩ : ∃ g, mp.block_count = g + 1 := ⟨mp.block_count - 1,
        by omega⟩
      rw [hg, chainAux_succ]
      have hsh := chainAux_shrink mp.next mp.block_count mp.head l hchain
      have hcg : (pushUpdate a.debug mp i).next i = mp.head := by
        show (if i = i then mp.head else mp.next i) = mp.head
        rw [if_pos rfl]
      have hagree : ∀ j ∈ l, (pushUpdate a.debug mp i).next j = mp.next j := by
        intro j hj
        show (if j = i then mp.head else mp.next j) = mp.next j
        have hji : j ≠ i := by
          intro he
          exact hinotl (he ▸ hj)
        rw [if_neg hji]
      have hlen : l.length ≤ g := by
        have := nodup_length_succ_le l mp.block_count i hnd hmem hicount hinotl
        omega
      rw [hcg, chainAux_mono _ l.length mp.head l g
        (chainAux_congr mp.next _ l.length mp.head l hsh hagree) hlen]
      rfl
    · intro j hj
      rcases List.mem_cons.1 hj with h | h
      · subst h; exact hicount
      · exact hmem j h
    · intro j hj
      exact hiumem j (List.mem_of_mem_erase hj)
    · intro j hj
      by_cases hji : j = i
      · subst hji
        simp only [List.mem_cons, true_or, true_iff, or_iff_right]
        exact hiund.not_mem_erase
      · rw [List.mem_cons, or_iff_right hji, hpart j hj,
          not_iff_not, hiund.mem_erase_iff, and_iff_right hji]
    · intro hd j hj
      show (pushUpdate a.debug mp i).freeFlag j = true ↔ j ∈ i :: l
      simp only at hd
      rw [hd]
      show (if true = true then (fun j => if j = i then true
        else mp.freeFlag j) else mp.freeFlag) j = true ↔ j ∈ i :: l
      rw [if_pos rfl]
      by_cases hji : j = i
      · subst hji
        simp [List.mem_cons]
      · rw [if_neg hji, hflags hd j hj, List.mem_cons, or_iff_right hji]

/-- C4 witness: a freshly constructed release pool with two slots. -/
theorem C4_witness :
    0 < 64 ∧ (64 : Nat) ≤ 2 ^ 64 - 64 ∧ 0 < 2 ∧ (1000 : Nat) ≠ 0 ∧
    ∃ mp l, WFl (mkAllocator false 64 2 1000) mp [] l ∧ l.length = 2 :=
  ⟨by decide, by norm_num, by decide, by decide,
    C4_free_list_invariant.1 false 64 2 1000 (by decide) (by norm_num)
      (by decide) (by decide)⟩

/-! ### Failed construction (C5) -/

/-- C5 counterexample: after a construction that failed argument
validation (`payload_size = 0`), `m_MemoryPool` is null, so the
`block_size()` accessor — which reads `m_MemoryPool->block_size` with no
null guard — dereferences a null pointer; its result is undefined
(modelled `none`), refuting the claim that every public operation on a
failed pool is safe and never crashes. -/
theorem C5_counterexample_block_size :
    (mkAllocator false 0 5 1000).m_MemoryPool = none ∧
    (mkAllocator false 0 5 1000).blockSize = none := by
  exact ⟨rfl, rfl⟩

/-- C5 amended: after any failed construction (zero payload, zero count,
or a null buffer from the memory source) the object is permanently
unready: `allocate()` returns null and leaves the object unchanged,
`free()` is a no-op for every pointer, `is_initialized()` reports false.
`block_size()` is safe only when construction progressed past argument
validation (the memory-source-failure case, where the pool record exists
and carries the computed stride); when the arguments were rejected the
pool record is null and `block_size()` dereferences a null pointer. -/
theorem C5_failed_construction_safe (debug : Bool) (ps count base : Nat)
    (h : ps = 0 ∨ count = 0 ∨ base = 0) :
    (mkAllocator debug ps count base).m_Initialized = false ∧
    (mkAllocator debug ps count base).isInitialized = false ∧
    (mkAllocator debug ps count base).allocate =
      .ok (none, mkAllocator debug ps count base) ∧
    (∀ ptr, (mkAllocator debug ps count base).free ptr =
      .ok (mkAllocator debug ps count base)) ∧
    (ps ≠ 0 → count ≠ 0 →
      (mkAllocator debug ps count base).blockSize =
        some (strideOf debug ps)) := by
  by_cases hzero : ps = 0 ∨ count = 0
  · rw [mkAllocator_zero_args debug ps count base hzero]
    refine ⟨rfl, rfl, rfl, fun ptr => ?_, fun hps hc => ?_⟩
    · by_cases hp : ptr = 0 <;> simp [Allocator.free, hp]
    · exact absurd hzero (by simp [hps, hc])
  · have hps : ps ≠ 0 := fun h0 => hzero (Or.inl h0)
    have hc : count ≠ 0 := fun h0 => hzero (Or.inr h0)
    have hbase : base = 0 := by
      rcases h with h | h | h
      · exact absurd h hps
      · exact absurd h hc
      · exact h
    subst hbase
    rw [mkAllocator_no_memory debug ps count hps hc]
    refine ⟨rfl, rfl, rfl, fun ptr => ?_, fun _ _ => rfl⟩
    by_cases hp : ptr = 0 <;> simp [Allocator.free, hp]

/-- C5 witness for the amended statement: zero payload size. -/
theorem C5_witness :
    ((0 : Nat) = 0 ∨ (5 : Nat) = 0 ∨ (1000 : Nat) = 0) ∧
    ((mkAllocator false 0 5 1000).m_Initialized = false ∧
     (mkAllocator false 0 5 1000).isInitialized = false ∧
     (mkAllocator false 0 5 1000).allocate =
       .ok (none, mkAllocator false 0 5 1000) ∧
     (∀ ptr, (mkAllocator false 0 5 1000).free ptr =
       .ok (mkAllocator false 0 5 1000)) ∧
     ((0 : Nat) ≠ 0 → (5 : Nat) ≠ 0 →
       (mkAllocator false 0 5 1000).blockSize = some (strideOf false 0))) :=
  ⟨Or.inl rfl, C5_failed_construction_safe false 0 5 1000 (Or.inl rfl)⟩

/-! ### Validity checks in `free` (C6) -/

/-- C6 counterexample: in the release pool with buffer `[1000, 1144)` and
stride 72, the payload pointer 1008 (slot 0's payload, exactly what
`allocate()` hands out) lies inside the buffer but has
`(ptr - buffer_start) % stride = 8 ≠ 0`, so the claim's condition calls it
misaligned and predicts a fatal abort — yet `free(1008)` succeeds and
pushes the block, because the code subtracts `sizeof(Block)` from `ptr`
before both checks.  (Conversely, `free(1000)` — in range and stride
aligned by the claim's formula — aborts as a foreign pointer.) -/
theorem C6_counterexample :
    blockSizeD (mkAllocator false 64 2 1000) = 72 ∧
    (1000 ≤ 1008 ∧ 1008 < 1000 + 72 * 2) ∧ (1008 - 1000) % 72 ≠ 0 ∧
    (∃ a2, (mkAllocator false 64 2 1000).free 1008 = .ok a2) ∧
    (mkAllocator false 64 2 1000).free 1000 = .error .foreignPointer := by
  exact ⟨by decide, by decide, by decide, ⟨_, rfl⟩, rfl⟩

/-- C6 amended (release build): for an initialized pool and a non-null
`ptr`, `free(ptr)` fatally aborts if and only if the header-adjusted block
address `ptr - sizeof(Block)` falls outside the owned buffer's address
range or `(ptr - sizeof(Block) - buffer_start) % stride ≠ 0`; when both
checks pass the pointed-to slot is pushed onto the head of the free list.
(Debug builds add the double-free, wrong-pool and canary aborts, treated
with C7.) -/
theorem C6_free_abort_iff (a : Allocator) (mp : MemoryPool) (ptr : Nat)
    (hdbg : a.debug = false) (hmp : a.m_MemoryPool = some mp)
    (hinit : a.m_Initialized = true) (hbs : 0 < mp.block_size)
    (hptr : ptr ≠ 0) :
    ((∃ e, a.free ptr = .error e) ↔
      ((ptr : Int) - 8 < (mp.memory : Int) ∨
       (mp.memory : Int) + (mp.block_size : Int) * (mp.block_count : Int) ≤
         (ptr : Int) - 8 ∨
       ((ptr : Int) - 8 - (mp.memory : Int)) % (mp.block_size : Int) ≠ 0)) ∧
    (¬ ((ptr : Int) - 8 < (mp.memory : Int) ∨
        (mp.memory : Int) + (mp.block_size : Int) * (mp.block_count : Int) ≤
          (ptr : Int) - 8 ∨
        ((ptr : Int) - 8 - (mp.memory : Int)) % (mp.block_size : Int) ≠ 0) →
      ∃ i : Nat, (ptr : Int) - 8 =
          (mp.memory : Int) + (i : Int) * (mp.block_size : Int) ∧
        a.free ptr = .ok ⟨a.debug, true, some (pushUpdate a.debug mp i)⟩) := by
  obtain ⟨dbg, init, mpo⟩ := a
  simp only at hdbg hmp hinit
  subst hdbg hmp hinit
  have hbsZ : (0 : Int) < (mp.block_size : Int) := by exact_mod_cast hbs
  simp only [Allocator.free, if_neg hptr]
  rw [show (headerSize false : Int) = 8 from rfl]
  by_cases h1 : ((ptr : Int) - 8 < (mp.memory : Int) ∨
      (mp.memory : Int) + (mp.block_size : Int) * (mp.block_count : Int) ≤
        (ptr : Int) - 8)
  · rw [if_pos h1]
    constructor
    · constructor
      · intro _
        rcases h1 with h | h
        · exact Or.inl h
        · exact Or.inr (Or.inl h)
      · intro _
        exact ⟨.foreignPointer, rfl⟩
    · intro hnot
      exact absurd (by tauto) hnot
  · rw [if_neg h1]
    by_cases h2 : (((ptr : Int) - 8 - (mp.memory : Int)) %
        (mp.block_size : Int) ≠ 0)
    · rw [if_pos h2]
      constructor
      · constructor
        · intro _
          exact Or.inr (Or.inr h2)
        · intro _
          exact ⟨.misaligned, rfl⟩
      · intro hnot
        exact absurd (Or.inr (Or.inr h2)) hnot
    · rw [if_neg h2]
      rw [show ((false && mp.freeFlag (((ptr : Int) - 8 - (mp.memory : Int)) /
        (mp.block_size : Int)).toNat)) = false from rfl]
      simp only [Bool.false_eq_true, if_false]
      constructor
      · constructor
        · intro ⟨e, he⟩
          cases he
        · intro hcond
          rcases hcond with h | h | h
          · exact absurd (Or.inl h) h1
          · exact absurd (Or.inr h) h1
          · exact absurd h h2
      · intro _
        push_neg at h1 h2
        set b : Int := (ptr : Int) - 8 - (mp.memory : Int) with hb
        have hbnn : 0 ≤ b := by omega
        have hq : b = (mp.block_size : Int) * (b / (mp.block_size : Int)) := by
          have := Int.ediv_add_emod b (mp.block_size : Int)
          omega
        have hqnn : 0 ≤ b / (mp.block_size : Int) :=
          Int.ediv_nonneg hbnn (le_of_lt hbsZ)
        refine ⟨(b / (mp.block_size : Int)).toNat, ?_, rfl⟩
        rw [Int.toNat_of_nonneg hqnn]
        have hq2 : b = b / (mp.block_size : Int) * (mp.block_size : Int) :=
          hq.trans (mul_comm _ _)
        omega

/-- C6 witness for the amended statement: slot 1's payload address 1080 in
the two-slot release pool `sampleA`. -/
theorem C6_witness :
    sampleA.debug = false ∧ sampleA.m_MemoryPool = some sampleMP ∧
    sampleA.m_Initialized = true ∧ 0 < sampleMP.block_size ∧
    (1080 : Nat) ≠ 0 ∧
    (((∃ e, sampleA.free 1080 = .error e) ↔
      ((1080 : Int) - 8 < (sampleMP.memory : Int) ∨
       (sampleMP.memory : Int) +
         (sampleMP.block_size : Int) * (sampleMP.block_count : Int) ≤
           (1080 : Int) - 8 ∨
       ((1080 : Int) - 8 - (sampleMP.memory : Int)) %
         (sampleMP.block_size : Int) ≠ 0)) ∧
    (¬ ((1080 : Int) - 8 < (sampleMP.memory : Int) ∨
        (sampleMP.memory : Int) +
          (sampleMP.block_size : Int) * (sampleMP.block_count : Int) ≤
            (1080 : Int) - 8 ∨
        ((1080 : Int) - 8 - (sampleMP.memory : Int)) %
          (sampleMP.block_size : Int) ≠ 0) →
      ∃ i : Nat, (1080 : Int) - 8 =
          (sampleMP.memory : Int) + (i : Int) * (sampleMP.block_size : Int) ∧
        sampleA.free 1080 =
          .ok ⟨sampleA.debug, true, some (pushUpdate sampleA.debug sampleMP i)⟩)) :=
  ⟨rfl, rfl, rfl, by decide, by decide,
    C6_free_abort_iff sampleA sampleMP 1080 rfl rfl rfl (by decide) (by decide)⟩

/-! ### Pointer alignment (C9) -/

/-- C9: part 1 — every pool record the constructor creates carries a
stride that is a multiple of the pointer alignment (the raw block size is
rounded up with `align_up`).  Part 2 — whenever the backing buffer address
is pointer-aligned and the stride is a multiple of the pointer alignment,
every non-null pointer `allocate()` returns satisfies
`address % pointer_alignment = 0` (the payload offset `sizeof(Block)` is
itself a multiple of the alignment in both builds). -/
theorem C9_allocate_alignment :
    (∀ (debug : Bool) (ps count base : Nat) (mp : MemoryPool),
      (mkAllocator debug ps count base).m_MemoryPool = some mp →
      mp.block_size % PTR_ALIGN = 0) ∧
    (∀ (a : Allocator) (mp : MemoryPool) (p : Nat) (a' : Allocator),
      a.m_MemoryPool = some mp → mp.memory % PTR_ALIGN = 0 →
      mp.block_size % PTR_ALIGN = 0 →
      a.allocate = .ok (some p, a') → p % PTR_ALIGN = 0) := by
  constructor
  · intro debug ps count base mp hmp
    by_cases hzero : ps = 0 ∨ count = 0
    · rw [mkAllocator_zero_args debug ps count base hzero] at hmp
      cases hmp
    · have hps : ps ≠ 0 := fun h0 => hzero (Or.inl h0)
      have hc : count ≠ 0 := fun h0 => hzero (Or.inr h0)
      by_cases hb : base = 0
      · subst hb
        rw [mkAllocator_no_memory debug ps count hps hc] at hmp
        obtain ⟨rfl⟩ := Option.some.injEq .. ▸ hmp
        exact align_up_mod _
      · rw [mkAllocator_eq_init debug ps count base hps hc hb] at hmp
        obtain ⟨rfl⟩ := Option.some.injEq .. ▸ hmp
        exact align_up_mod _
  · intro a mp p a' hmp hmem8 hbs8 halloc
    obtain ⟨dbg, init, mpo⟩ := a
    simp only at hmp
    subst hmp
    cases init
    · simp [Allocator.allocate] at halloc
    · cases hh : mp.head with
      | none =>
        rw [allocate_empty ⟨dbg, true, some mp⟩ mp rfl hh] at halloc
        simp at halloc
      | some i =>
        cases hfl : (dbg && !(mp.freeFlag i)) with
        | true => simp [Allocator.allocate, hh, hfl] at halloc
        | false =>
          have hp : p = mp.memory + i * mp.block_size + headerSize dbg := by
            have := allocate_pop ⟨dbg, true, some mp⟩ mp i rfl rfl hh (by
              intro hd
              subst hd
              simpa using hfl)
            rw [this] at halloc
            obtain ⟨h1, _⟩ := Prod.mk.injEq .. ▸ Except.ok.injEq .. ▸ halloc
            have := Option.some.injEq .. ▸ h1.symm
            simpa [addrOf] using this
          subst hp
          have h1 : (i * mp.block_size) % PTR_ALIGN = 0 := by
            rw [Nat.mul_mod, hbs8]
            simp
          have h2 : headerSize dbg % PTR_ALIGN = 0 := by
            cases dbg <;> rfl
          show (mp.memory + i * mp.block_size + headerSize dbg) % 8 = 0
          have e1 : mp.memory % 8 = 0 := hmem8
          have e2 : (i * mp.block_size) % 8 = 0 := h1
          have e3 : headerSize dbg % 8 = 0 := h2
          omega

/-- C9 witness: the three-slot release pool constructed at the aligned
buffer address 1000 (stride 72); its first allocation returns the address
1152 = 1000 + 2 * 72 + 8, a multiple of the pointer alignment. -/
theorem C9_witness :
    ((mkAllocator false 64 3 1000).m_MemoryPool =
      some ⟨1000, (initBlocks 3).2.1, (initBlocks 3).1, strideOf false 64, 3,
        64, (initBlocks 3).2.2⟩) ∧
    (1000 : Nat) % PTR_ALIGN = 0 ∧ strideOf false 64 % PTR_ALIGN = 0 ∧
    (1152 : Nat) % PTR_ALIGN = 0 :=
  ⟨rfl, by decide, by decide,
    C9_allocate_alignment.2 (mkAllocator false 64 3 1000)
      ⟨1000, (initBlocks 3).2.1, (initBlocks 3).1, strideOf false 64, 3, 64,
        (initBlocks 3).2.2⟩ 1152
      ⟨false, true, some ⟨1000, (initBlocks 3).1 2, (initBlocks 3).1,
        strideOf false 64, 3, 64, (initBlocks 3).2.2⟩⟩
      rfl (by decide) (by decide) rfl⟩

/-! ### Slab dispatcher routing (C8, C2, C10) -/

/-- C8: with the fixed size classes {64, 128, 256, 512} (100 blocks each),
`allocate(50)` returns a block from the 64-byte pool (an address inside
that pool's buffer), `allocate(500)` returns a block from the 512-byte
pool, and `allocate(600)` returns empty and leaves every pool unchanged;
in both release and debug builds (their strides differ but the routing is
the same for these three sizes). -/
theorem C8_dispatcher_scenario (debug : Bool) (b0 b1 b2 b3 : Nat)
    (h0 : b0 ≠ 0) (h1 : b1 ≠ 0) (h2 : b2 ≠ 0) (h3 : b3 ≠ 0) :
    (∃ p s', slabAllocate (mkSlab debug b0 b1 b2 b3) 50 = .ok (some p, s') ∧
      b0 ≤ p ∧ p < b0 + strideOf debug 64 * 100) ∧
    (∃ p s', slabAllocate (mkSlab debug b0 b1 b2 b3) 500 = .ok (some p, s') ∧
      b3 ≤ p ∧ p < b3 + strideOf debug 512 * 100) ∧
    slabAllocate (mkSlab debug b0 b1 b2 b3) 600 =
      .ok (none, mkSlab debug b0 b1 b2 b3) := by
  simp only [mkSlab]
  rw [mkAllocator_eq_init debug 64 100 b0 (by decide) (by decide) h0,
    mkAllocator_eq_init debug 128 100 b1 (by decide) (by decide) h1,
    mkAllocator_eq_init debug 256 100 b2 (by decide) (by decide) h2,
    mkAllocator_eq_init debug 512 100 b3 (by decide) (by decide) h3]
  cases debug
  · refine ⟨⟨b0 + 99 * 72 + 8, _, rfl, by omega, ?_⟩,
      ⟨b3 + 99 * 520 + 8, _, rfl, by omega, ?_⟩, rfl⟩
    · show b0 + 99 * 72 + 8 < b0 + 72 * 100
      omega
    · show b3 + 99 * 520 + 8 < b3 + 520 * 100
      omega
  · refine ⟨⟨b0 + 99 * 96 + 24, _, rfl, by omega, ?_⟩,
      ⟨b3 + 99 * 544 + 24, _, rfl, by omega, ?_⟩, rfl⟩
    · show b0 + 99 * 96 + 24 < b0 + 96 * 100
      omega
    · show b3 + 99 * 544 + 24 < b3 + 544 * 100
      omega

/-- C8 witness: release build, buffers at 8, 16, 24, 32. -/
theorem C8_witness :
    (8 : Nat) ≠ 0 ∧ (16 : Nat) ≠ 0 ∧ (24 : Nat) ≠ 0 ∧ (32 : Nat) ≠ 0 ∧
    ((∃ p s', slabAllocate (mkSlab false 8 16 24 32) 50 = .ok (some p, s') ∧
      8 ≤ p ∧ p < 8 + strideOf false 64 * 100) ∧
    (∃ p s', slabAllocate (mkSlab false 8 16 24 32) 500 = .ok (some p, s') ∧
      32 ≤ p ∧ p < 32 + strideOf false 512 * 100) ∧
    slabAllocate (mkSlab false 8 16 24 32) 600 =
      .ok (none, mkSlab false 8 16 24 32)) :=
  ⟨by decide, by decide, by decide, by decide,
    C8_dispatcher_scenario false 8 16 24 32 (by decide) (by decide) (by decide)
      (by decide)⟩

/-- C2 (code evaluation): the dispatcher compares the requested size
against `block_size()`, which returns the header-inclusive aligned stride
(72/136/264/520 in a release build), not the usable payload capacity
(64/128/256/512).  Consequently `allocate(513)` is served from the pool
whose payload capacity is only 512, and `allocate(70)` from the pool whose
payload capacity is only 64 — instead of 513 returning null and 70 going
to the 128-byte class as the claim's payload-capacity rule requires. -/
theorem C2_stride_not_payload_routing (b0 b1 b2 b3 : Nat)
    (h0 : b0 ≠ 0) (h1 : b1 ≠ 0) (h2 : b2 ≠ 0) (h3 : b3 ≠ 0) :
    (∃ p s', slabAllocate (mkSlab false b0 b1 b2 b3) 513 = .ok (some p, s') ∧
      b3 ≤ p ∧ p < b3 + strideOf false 512 * 100) ∧
    ((mkAllocator false 512 100 b3).m_MemoryPool.map (·.payload_size) =
      some 512) ∧
    (∃ p s', slabAllocate (mkSlab false b0 b1 b2 b3) 70 = .ok (some p, s') ∧
      b0 ≤ p ∧ p < b0 + strideOf false 64 * 100) ∧
    ((mkAllocator false 64 100 b0).m_MemoryPool.map (·.payload_size) =
      some 64) := by
  simp only [mkSlab]
  rw [mkAllocator_eq_init false 64 100 b0 (by decide) (by decide) h0,
    mkAllocator_eq_init false 128 100 b1 (by decide) (by decide) h1,
    mkAllocator_eq_init false 256 100 b2 (by decide) (by decide) h2,
    mkAllocator_eq_init false 512 100 b3 (by decide) (by decide) h3]
  refine ⟨⟨b3 + 99 * 520 + 8, _, rfl, by omega, ?_⟩, rfl,
    ⟨b0 + 99 * 72 + 8, _, rfl, by omega, ?_⟩, rfl⟩
  · show b3 + 99 * 520 + 8 < b3 + 520 * 100
    omega
  · show b0 + 99 * 72 + 8 < b0 + 72 * 100
    omega

/-- C2 witness: release build, buffers at 8, 16, 24, 32. -/
theorem C2_witness :
    (8 : Nat) ≠ 0 ∧ (16 : Nat) ≠ 0 ∧ (24 : Nat) ≠ 0 ∧ (32 : Nat) ≠ 0 ∧
    ((∃ p s', slabAllocate (mkSlab false 8 16 24 32) 513 = .ok (some p, s') ∧
      32 ≤ p ∧ p < 32 + strideOf false 512 * 100) ∧
    ((mkAllocator false 512 100 32).m_MemoryPool.map (·.payload_size) =
      some 512) ∧
    (∃ p s', slabAllocate (mkSlab false 8 16 24 32) 70 = .ok (some p, s') ∧
      8 ≤ p ∧ p < 8 + strideOf false 64 * 100) ∧
    ((mkAllocator false 64 100 8).m_MemoryPool.map (·.payload_size) =
      some 64)) :=
  ⟨by decide, by decide, by decide, by decide,
    C2_stride_not_payload_routing 8 16 24 32 (by decide) (by decide)
      (by decide) (by decide)⟩

/-- C10 counterexample: with size classes {64, 128, 256, 512}, the size
513 exceeds the largest class's payload capacity (512), yet
`free(ptr, 513)` is forwarded to the 512-byte pool (513 ≤ its
`block_size()` of 520) and does modify that pool's free list: freeing slot
0's payload address pushes slot 0, changing the pool's free-list head from
99 to 0. -/
theorem C10_counterexample :
    512 < 513 ∧
    ∃ s', slabFree (mkSlab false 4096 16384 65536 262144) (262144 + 8) 513 =
        .ok s' ∧
      headOfPool s' 3 = some (some 0) ∧
      headOfPool (mkSlab false 4096 16384 65536 262144) 3 = some (some 99) :=
  ⟨by decide, _, rfl, rfl, rfl⟩

/-- C10 amended: `SlabAllocator::free(ptr, size)` returns silently, with
no pool forwarded to and no pool modified, exactly when `size` exceeds
every pool's `block_size()` (the header-inclusive stride; 520 for the
largest default class in a release build).  Sizes in (512, 520] are still
routed to the 512-byte class. -/
theorem C10_oversize_free_silent (pools : List Allocator) (ptr size : Nat)
    (h : ∀ a ∈ pools, blockSizeD a < size) :
    slabFree pools ptr size = .ok pools := by
  induction pools with
  | nil => rfl
  | cons a rest ih =>
    show (if size ≤ blockSizeD a then (a.free ptr).map (· :: rest)
      else (slabFree rest ptr size).map (a :: ·)) = _
    rw [if_neg (by
      have := h a (List.mem_cons_self a rest)
      omega)]
    rw [ih (fun b hb => h b (List.mem_cons_of_mem a hb))]
    rfl

/-- C10 witness for the amended statement: the default release slab and
size 521, one past the largest stride. -/
theorem C10_witness :
    (∀ a ∈ mkSlab false 8 16 24 32, blockSizeD a < 521) ∧
    slabFree (mkSlab false 8 16 24 32) 12345 521 =
      .ok (mkSlab false 8 16 24 32) :=
  ⟨by decide, C10_oversize_free_silent (mkSlab false 8 16 24 32) 12345 521
    (by decide)⟩
